import Mathlib

/-!
Verification development for the banking-monitoring analytics subsystem
(src/analytics/anomaly_detector.py and src/log_analysis/log_analyzer.py).

Embedding conventions:
* Python floats are modelled by exact rationals.  All comparisons against a
  standard deviation (an irrational square root) are embedded by squaring:
  for a threshold t with 0 <= t and stdev > 0, the source condition
  z > t with z = d / stdev is equivalent to d ^ 2 > t ^ 2 * variance.
  All thresholds used by the code (2.5, 2.0, 1.5, 3.0, 3.5) are nonnegative,
  so the squared form is faithful.  Where the source stores a z-score in a
  result we store the squared z-score; where it stores a deviation (already
  rational) we store it exactly.
* Wall-clock reads (datetime.now()) are embedded by passing the current time
  explicitly as a parameter named now; timestamps are rationals (seconds).
* Library timestamp parsing (datetime.strptime, datetime.fromisoformat) is
  embedded as an explicit function parameter of type String -> Option Q,
  where none models a ValueError.  Theorems quantify over this parameter;
  witnesses instantiate it with concrete functions.
* Python list semantics: enumerate(l) is embedded as the list of pairs
  (i, l[i]); slices are drop/take; sorted is a stable merge sort; a dict
  built by insertion keeps keys in first-occurrence order.
* Fallible code is embedded with Except Unit; Except.error () models an
  uncaught exception aborting the call.
-/

/-- Python statistics.mean on rationals (callers guard nonempty input). -/
def listMean (l : List ℚ) : ℚ := l.sum / l.length

/-- Python statistics.variance (sample variance, denominator n - 1); callers
guard that the list has at least two elements. -/
def sampleVar (l : List ℚ) : ℚ :=
  ((l.map (fun x => (x - listMean l) ^ 2)).sum) / ((l.length : ℚ) - 1)

/-- Python statistics.median: sort, take the middle element for odd length,
the mean of the two middle elements for even length. -/
def listMedian (l : List ℚ) : ℚ :=
  let s := l.mergeSort (fun a b => decide (a ≤ b))
  let n := l.length
  if n % 2 = 1 then s.getD (n / 2) 0
  else (s.getD (n / 2 - 1) 0 + s.getD (n / 2) 0) / 2

/-- Python statistics.quantiles with the default exclusive method, applied to
already sorted data: the i-th of the n-1 cut points.  Mirrors the CPython
computation: j, delta = divmod(i * (ld + 1), n), with j clamped into
[1, ld - 1] and delta left unclamped. -/
def quantileExc (data : List ℚ) (n i : ℕ) : ℚ :=
  let ld := data.length
  let m := ld + 1
  let j0 := (i * m) / n
  let delta := (i * m) % n
  let j := min (max j0 1) (ld - 1)
  (data.getD (j - 1) 0 * ((n : ℚ) - (delta : ℚ)) + data.getD j 0 * (delta : ℚ)) / (n : ℚ)

/-- Python enumerate(values): the list of (index, value) pairs. -/
def idxVals (l : List ℚ) : List (ℕ × ℚ) :=
  (List.range l.length).map (fun i => (i, l.getD i 0))

/-- The expression x[idx] if timestamps else now, shared by the engine and the
seasonality detector: a missing or empty timestamp list falls back to the
wall clock. -/
def tsAt (timestamps : Option (List ℚ)) (idx : ℕ) (now : ℚ) : ℚ :=
  match timestamps with
  | none => now
  | some l => if l = [] then now else l.getD idx now

/-- ZScoreDetector.detect: guard len < 2, guard zero variance, then flag every
index whose squared z-score exceeds the squared threshold.  The returned
rational is the squared z-score (the source returns the z-score itself, the
square root of this value). -/
def ZScoreDetector.detect (threshold : ℚ) (values : List ℚ) : List (ℕ × ℚ) :=
  if values.length < 2 then []
  else
    let m := listMean values
    let v := sampleVar values
    if v = 0 then []
    else
      (idxVals values).filterMap (fun p =>
        let zsq := (p.2 - m) ^ 2 / v
        if threshold ^ 2 < zsq then some (p.1, zsq) else none)

/-- IQRDetector.detect: guard len < 4, compute Q1 and Q3 of the sorted values
by the exclusive quantile rule, and tag values outside
[Q1 - m * iqr, Q3 + m * iqr] as low or high outliers. -/
def IQRDetector.detect (multiplier : ℚ) (values : List ℚ) : List (ℕ × String) :=
  if values.length < 4 then []
  else
    let sortedValues := values.mergeSort (fun a b => decide (a ≤ b))
    let q1 := quantileExc sortedValues 4 1
    let q3 := quantileExc sortedValues 4 3
    let iqr := q3 - q1
    let lowerBound := q1 - multiplier * iqr
    let upperBound := q3 + multiplier * iqr
    (idxVals values).filterMap (fun p =>
      if p.2 < lowerBound then some (p.1, "low_outlier")
      else if upperBound < p.2 then some (p.1, "high_outlier")
      else none)

/-- MovingAverageDetector.detect: for each index i in [window, len), compare
the value at i with the mean of the trailing window values[i - w : i]; flag
when the window variance is positive and the squared deviation exceeds
sigma ^ 2 times the window variance (the source condition
deviation > sigma * stdev, squared; sigma is nonnegative at every call
site).  The returned rational is the exact absolute deviation. -/
def MovingAverageDetector.detect (windowSize : ℕ) (sigma : ℚ) (values : List ℚ) :
    List (ℕ × ℚ) :=
  if values.length < windowSize then []
  else
    (List.range' windowSize (values.length - windowSize)).filterMap (fun i =>
      let window := (values.drop (i - windowSize)).take windowSize
      let ma := listMean window
      let variance := sampleVar window
      let currentValue := values.getD i 0
      let deviation := |currentValue - ma|
      if 0 < variance ∧ sigma ^ 2 * variance < deviation ^ 2 then
        some (i, deviation)
      else none)

/-- Closed tag set for anomaly types, mirroring the AnomalyType enum. -/
inductive AnomalyType where
  | statistical
  | behavioral
  | seasonal
  | contextual
deriving DecidableEq, Repr

/-- Detector-specific evidence carried by an anomaly, mirroring the context
dict built at each construction site (z-scores are stored squared, matching
the squared embedding). -/
inductive AnomalyContext where
  | zscore (zsq : ℚ) (index : ℕ)
  | iqr (outlierType : String) (index : ℕ)
  | movingAvg (deviation : ℚ) (index : ℕ)
  | seasonal (seasonIndex : ℕ) (zsq : ℚ)
  | largeTxn (transactionId : Option String) (fromAccount : Option String)
  | rapidFire (accountId : String) (gapSeconds : ℚ)
deriving DecidableEq, Repr

/-- The Anomaly dataclass.  The description field of the source is a format
string determined by the same data as the context field and is omitted from
the embedding. -/
structure Anomaly where
  timestamp : ℚ
  metric_name : String
  value : ℚ
  expected_value : ℚ
  anomaly_type : AnomalyType
  severity : String
  context : AnomalyContext
deriving DecidableEq, Repr

/-- SeasonalityDetector helper: the values of the season bucket for residue
sidx, in index order (the order Python appends them in). -/
def seasonVals (values : List ℚ) (period sidx : ℕ) : List ℚ :=
  ((List.range values.length).filter (fun i => i % period = sidx)).map
    (fun i => values.getD i 0)

/-- SeasonalityDetector.detect: guard len < 2 * period; bucket indices by
index mod period (bucket keys iterate in first-occurrence order, which is
0, 1, ..., period - 1 once the guard passed); inside each bucket of at least
two members flag values whose squared z-score within the bucket exceeds
2.5 ^ 2 = 25/4. -/
def SeasonalityDetector.detect (period : ℕ) (values : List ℚ)
    (timestamps : Option (List ℚ)) (now : ℚ) : List Anomaly :=
  if values.length < period * 2 then []
  else
    (List.range period).flatMap (fun sidx =>
      let sv := seasonVals values period sidx
      if sv.length < 2 then []
      else
        let m := listMean sv
        let v := sampleVar sv
        ((List.range values.length).filter (fun i => i % period = sidx)).filterMap
          (fun i =>
            let value := values.getD i 0
            let zsq := (value - m) ^ 2 / v
            if 0 < v ∧ (25 / 4 : ℚ) < zsq then
              some { timestamp := tsAt timestamps i now
                     metric_name := "metric_index_" ++ toString i
                     value := value
                     expected_value := m
                     anomaly_type := AnomalyType.seasonal
                     severity := "medium"
                     context := AnomalyContext.seasonal sidx zsq }
            else none))

/-- AnomalyDetectionEngine.detect_metric_anomalies: guard len < 3, then run
the z-score detector (threshold 2.5), the IQR detector (multiplier 1.5) and
the moving-average detector (window 7, sigma 2.0) and append their anomaly
records in that order.  Severity of a z-score anomaly is high when the
z-score exceeds 3.5 (squared: 49/4), otherwise medium. -/
def detect_metric_anomalies (metricName : String) (values : List ℚ)
    (timestamps : Option (List ℚ)) (now : ℚ) : List Anomaly :=
  if values.length < 3 then []
  else
    let zscoreResults := ZScoreDetector.detect (5 / 2) values
    let zAnoms := zscoreResults.map (fun p =>
      { timestamp := tsAt timestamps p.1 now
        metric_name := metricName
        value := values.getD p.1 0
        expected_value := listMean values
        anomaly_type := AnomalyType.statistical
        severity := if (49 / 4 : ℚ) < p.2 then "high" else "medium"
        context := AnomalyContext.zscore p.2 p.1 })
    let iqrResults := IQRDetector.detect (3 / 2) values
    let iAnoms := iqrResults.map (fun p =>
      { timestamp := tsAt timestamps p.1 now
        metric_name := metricName
        value := values.getD p.1 0
        expected_value := listMedian values
        anomaly_type := AnomalyType.statistical
        severity := "medium"
        context := AnomalyContext.iqr p.2 p.1 })
    let maResults := MovingAverageDetector.detect 7 2 values
    let mAnoms := maResults.map (fun p =>
      { timestamp := tsAt timestamps p.1 now
        metric_name := metricName
        value := values.getD p.1 0
        expected_value := listMean values
        anomaly_type := AnomalyType.statistical
        severity := "medium"
        context := AnomalyContext.movingAvg p.2 p.1 })
    zAnoms ++ iAnoms ++ mAnoms

/-- Exact-count digit run: take exactly n chars, all decimal digits. -/
def takeNDigits : ℕ → List Char → Option (List Char × List Char)
  | 0, s => some ([], s)
  | n + 1, [] => (fun _ => none) n
  | n + 1, c :: s =>
    if c.isDigit then
      (takeNDigits n s).map (fun p => (c :: p.1, p.2))
    else none

/-- Maximal nonempty run of characters satisfying p (the backtracking-free
reading of a greedy one-or-more character class followed by a literal that
no class character can start, which is the situation at every use site). -/
def takeRun (p : Char → Bool) (s : List Char) : Option (List Char × List Char) :=
  let run := s.takeWhile p
  if run = [] then none else some (run, s.dropWhile p)

/-- Literal match of an expected character sequence. -/
def expectLit : List Char → List Char → Option (List Char)
  | [], s => some s
  | _ :: _, [] => none
  | c :: cs, d :: s => if d = c then expectLit cs s else none

/-- ASCII word character, modelling the regex class backslash-w (the source
pattern only ever faces ASCII log lines; the Unicode extension of the class
is out of scope). -/
def isWordChar (c : Char) : Bool := c.isAlphanum || c = '_'

/-- Character class of the component group: word characters plus dot. -/
def isWordDotChar (c : Char) : Bool := isWordChar c || c = '.'

/-- Shape check for the fixed 19-character date-time prefix
YYYY-MM-DD HH:MM:SS of the log pattern. -/
def matchDateTime (s : List Char) : Option (List Char × List Char) := do
  let (y, s) ← takeNDigits 4 s
  let s ← expectLit ['-'] s
  let (mo, s) ← takeNDigits 2 s
  let s ← expectLit ['-'] s
  let (d, s) ← takeNDigits 2 s
  let s ← expectLit [' '] s
  let (h, s) ← takeNDigits 2 s
  let s ← expectLit [':'] s
  let (mi, s) ← takeNDigits 2 s
  let s ← expectLit [':'] s
  let (sec, s) ← takeNDigits 2 s
  pure (y ++ ['-'] ++ mo ++ ['-'] ++ d ++ [' '] ++ h ++ [':'] ++ mi ++ [':'] ++ sec, s)

/-- The anchored log-line regex of LogEntry.parse.  Groups: date-time string,
millisecond digits, component, level, message.  Every greedy group is a
character class that cannot contain the character starting the following
literal, so maximal munch coincides with regex backtracking semantics, and
the trailing dot-star group captures the remainder of the line up to a
newline. -/
def matchLogLine (s : List Char) : Option (List Char × List Char × List Char × List Char × List Char) := do
  let (ts, s) ← matchDateTime s
  let s ← expectLit [','] s
  let (ms, s) ← takeRun Char.isDigit s
  let s ← expectLit [' ', '-', ' '] s
  let (comp, s) ← takeRun isWordDotChar s
  let s ← expectLit [' ', '-', ' '] s
  let (lvl, s) ← takeRun isWordChar s
  let s ← expectLit [' ', '-', ' '] s
  pure (ts, ms, comp, lvl, s.takeWhile (fun c => c ≠ '\n'))

/-- The LogEntry record (the metadata field of the source, a best-effort JSON
extraction used by no claim, is omitted from the embedding). -/
structure LogEntry where
  raw_log : String
  timestamp : Option ℚ
  level : String
  component : String
  message : String
deriving DecidableEq, Repr, Inhabited

/-- LogEntry construction (the constructor runs parse on the raw line).  On a
regex match the timestamp is the strptime result or, when strptime rejects
the rebuilt fractional-seconds string, the current wall clock; on match
failure every field keeps its initial value.  The parameter strptime embeds
datetime.strptime with format percent-Y-m-d H:M:S.f, with none modelling a
ValueError. -/
def LogEntry.parse (strptime : String → Option ℚ) (now : ℚ) (raw : String) : LogEntry :=
  match matchLogLine raw.data with
  | none =>
    { raw_log := raw, timestamp := none, level := "UNKNOWN",
      component := "unknown", message := "" }
  | some (ts, ms, comp, lvl, msg) =>
    { raw_log := raw
      timestamp := some ((strptime (String.mk ts ++ "." ++ String.mk ms)).getD now)
      level := String.mk (lvl.map Char.toUpper)
      component := String.mk comp
      message := String.mk msg }

/-- LogAnalyzer.load_logs: strip each line, skip blank lines, construct a
LogEntry from every remaining line. -/
def load_logs (strptime : String → Option ℚ) (now : ℚ) (logLines : List String) :
    List LogEntry :=
  logLines.filterMap (fun line =>
    let s := line.trim
    if s = "" then none else some (LogEntry.parse strptime now s))

/-- The first_error and last_error computation of
LogAnalyzer.get_error_summary: filter the entries whose level is ERROR and
read the timestamp of the first and last of them.  Reading isoformat() of a
None timestamp raises AttributeError, modelled by Except.error.  The error
breakdown of the summary reads only metadata and message and performs no
timestamp access, so it is not part of this embedding. -/
def get_error_summary_bounds (entries : List LogEntry) :
    Except Unit (Option ℚ × Option ℚ) :=
  let errors := entries.filter (fun e => e.level = "ERROR")
  if errors = [] then Except.ok (none, none)
  else
    match (errors.headD default).timestamp, (errors.getLastD default).timestamp with
    | some t1, some t2 => Except.ok (some t1, some t2)
    | _, _ => Except.error ()

/-- A transaction record: the dict keys read by the contextual detectors,
each optional because dict.get supplies a default when the key is absent. -/
structure Txn where
  amount : Option ℚ
  timestamp : Option String
  from_account : Option String
  transaction_id : Option String
deriving DecidableEq, Repr, Inhabited

/-- The per-record loop of ContextualAnomalyDetector.detect_transaction_anomalies:
a record whose amount lies more than three standard deviations above the mean
(squared form: amount above the mean with squared distance above 9 times the
variance) is flagged; building its anomaly parses the record timestamp, and a
present but unparsable timestamp raises ValueError uncaught, aborting the
whole batch (a missing timestamp falls back to now().isoformat(), which always
parses back to the wall clock). -/
def txnLoop (parseIso : String → Option ℚ) (now : ℚ) (meanAmount varAmount : ℚ) :
    List Txn → Except Unit (List Anomaly)
  | [] => Except.ok []
  | t :: rest =>
    let amount := t.amount.getD 0
    if 0 < varAmount ∧ meanAmount < amount ∧ 9 * varAmount < (amount - meanAmount) ^ 2 then
      let ts? := match t.timestamp with
        | none => some now
        | some s => parseIso s
      match ts? with
      | none => Except.error ()
      | some ts =>
        (txnLoop parseIso now meanAmount varAmount rest).map (fun l =>
          { timestamp := ts
            metric_name := "transaction_amount"
            value := amount
            expected_value := meanAmount
            anomaly_type := AnomalyType.contextual
            severity := "high"
            context := AnomalyContext.largeTxn t.transaction_id t.from_account } :: l)
    else txnLoop parseIso now meanAmount varAmount rest

/-- ContextualAnomalyDetector.detect_transaction_anomalies: guard the empty
batch, compute mean and (for two or more records) sample variance of the
amounts, then run the per-record loop. -/
def detect_transaction_anomalies (parseIso : String → Option ℚ) (now : ℚ)
    (transactions : List Txn) : Except Unit (List Anomaly) :=
  if transactions = [] then Except.ok []
  else
    let amounts := transactions.map (fun t => t.amount.getD 0)
    if amounts = [] then Except.ok []
    else
      let meanAmount := listMean amounts
      let varAmount := if 1 < amounts.length then sampleVar amounts else 0
      txnLoop parseIso now meanAmount varAmount transactions

/-- The sort key and grouping key of detect_fraud_patterns: a missing
timestamp sorts as the empty string, a missing source account groups under
the literal unknown. -/
def tsKey (t : Txn) : String := t.timestamp.getD ""

/-- Grouping key by source account. -/
def acctKey (t : Txn) : String := t.from_account.getD "unknown"

/-- Dict keys in first-occurrence order, as Python insertion-ordered dicts
iterate them. -/
def firstKeys (transactions : List Txn) : List String :=
  transactions.foldl (fun ks t => if acctKey t ∈ ks then ks else ks ++ [acctKey t]) []

/-- Stable sort of an account group by its timestamp string, mirroring
sorted(txns, key=lambda x: x.get(timestamp, empty)). -/
def sortByTs (g : List Txn) : List Txn :=
  g.mergeSort (fun a b => decide (tsKey a ≤ tsKey b))

/-- The rapid-fire scan of one account group: sort by timestamp string, then
for i in range(1, min(5, len)) parse the timestamps of the records at i - 1
and i; when both parse and their gap is below 60 seconds emit one
critical-severity behavioral anomaly with the gap as value and 300 as
expected baseline; a ValueError from either parse skips that iteration. -/
def rapidFire (parseIso : String → Option ℚ) (accountId : String) (g : List Txn) :
    List Anomaly :=
  let sorted := sortByTs g
  (List.range' 1 (min 5 g.length - 1)).filterMap (fun i =>
    match parseIso (tsKey (sorted.getD (i - 1) default)),
          parseIso (tsKey (sorted.getD i default)) with
    | some t1, some t2 =>
      let gap := t2 - t1
      if gap < 60 then
        some { timestamp := t2
               metric_name := "transaction_frequency"
               value := gap
               expected_value := 300
               anomaly_type := AnomalyType.behavioral
               severity := "critical"
               context := AnomalyContext.rapidFire accountId gap }
      else none
    | _, _ => none)

/-- ContextualAnomalyDetector.detect_fraud_patterns: group records by source
account in first-occurrence order and run the rapid-fire scan on every
account holding at least five records. -/
def detect_fraud_patterns (parseIso : String → Option ℚ) (transactions : List Txn) :
    List Anomaly :=
  if transactions = [] then []
  else
    (firstKeys transactions).flatMap (fun a =>
      let g := transactions.filter (fun t => acctKey t = a)
      if 5 ≤ g.length then rapidFire parseIso a g else [])

/-- Statement-level translation of ZScoreDetector.detect threading the input
list as explicit state: the body reads len(values), statistics.mean(values),
statistics.stdev(values) and iterates enumerate(values); none of these
statements assigns to or mutates the list, so every return site pairs the
result with the unchanged list. -/
def ZScoreDetector.detectSt (threshold : ℚ) (values : List ℚ) :
    List (ℕ × ℚ) × List ℚ :=
  if values.length < 2 then ([], values)
  else
    let m := listMean values
    let v := sampleVar values
    if v = 0 then ([], values)
    else
      ((idxVals values).filterMap (fun p =>
        let zsq := (p.2 - m) ^ 2 / v
        if threshold ^ 2 < zsq then some (p.1, zsq) else none), values)

/-- Statement-level translation of IQRDetector.detect threading the input
list: sorted(values) builds a copy, and every other statement only reads, so
every return site pairs the result with the unchanged list. -/
def IQRDetector.detectSt (multiplier : ℚ) (values : List ℚ) :
    List (ℕ × String) × List ℚ :=
  if values.length < 4 then ([], values)
  else
    let sortedValues := values.mergeSort (fun a b => decide (a ≤ b))
    let q1 := quantileExc sortedValues 4 1
    let q3 := quantileExc sortedValues 4 3
    let iqr := q3 - q1
    let lowerBound := q1 - multiplier * iqr
    let upperBound := q3 + multiplier * iqr
    ((idxVals values).filterMap (fun p =>
      if p.2 < lowerBound then some (p.1, "low_outlier")
      else if upperBound < p.2 then some (p.1, "high_outlier")
      else none), values)

/-- Statement-level translation of MovingAverageDetector.detect threading the
input list: slicing values[i - w : i] builds copies and the loop only reads,
so every return site pairs the result with the unchanged list. -/
def MovingAverageDetector.detectSt (windowSize : ℕ) (sigma : ℚ) (values : List ℚ) :
    List (ℕ × ℚ) × List ℚ :=
  if values.length < windowSize then ([], values)
  else
    ((List.range' windowSize (values.length - windowSize)).filterMap (fun i =>
      let window := (values.drop (i - windowSize)).take windowSize
      let ma := listMean window
      let variance := sampleVar window
      let currentValue := values.getD i 0
      let deviation := |currentValue - ma|
      if 0 < variance ∧ sigma ^ 2 * variance < deviation ^ 2 then
        some (i, deviation)
      else none), values)

/-- Statement-level translation of SeasonalityDetector.detect threading the
input list: the bucket dict is built by appending values read from the list,
and the scan loops only read, so every return site pairs the result with the
unchanged list. -/
def SeasonalityDetector.detectSt (period : ℕ) (values : List ℚ)
    (timestamps : Option (List ℚ)) (now : ℚ) : List Anomaly × List ℚ :=
  if values.length < period * 2 then ([], values)
  else
    ((List.range period).flatMap (fun sidx =>
      let sv := seasonVals values period sidx
      if sv.length < 2 then []
      else
        let m := listMean sv
        let v := sampleVar sv
        ((List.range values.length).filter (fun i => i % period = sidx)).filterMap
          (fun i =>
            let value := values.getD i 0
            let zsq := (value - m) ^ 2 / v
            if 0 < v ∧ (25 / 4 : ℚ) < zsq then
              some { timestamp := tsAt timestamps i now
                     metric_name := "metric_index_" ++ toString i
                     value := value
                     expected_value := m
                     anomaly_type := AnomalyType.seasonal
                     severity := "medium"
                     context := AnomalyContext.seasonal sidx zsq }
            else none)), values)

/-- Modelled from the spec (refinement target for the rapid-fire claim): for
one account group, the gaps between consecutive records among the first five
sorted by timestamp string; every gap under 60 seconds yields exactly one
critical-severity behavioral anomaly with the gap as value and 300 as
expected baseline.  Stated with total timestamp reads, to be compared with
the try/except scan of the source under the assumption that every timestamp
parses. -/
def specRapidFire (parseIso : String → Option ℚ) (accountId : String)
    (g : List Txn) : List Anomaly :=
  (List.range 4).filterMap (fun j =>
    let t1 := (parseIso (tsKey ((sortByTs g).getD j default))).getD 0
    let t2 := (parseIso (tsKey ((sortByTs g).getD (j + 1) default))).getD 0
    if t2 - t1 < 60 then
      some { timestamp := t2
             metric_name := "transaction_frequency"
             value := t2 - t1
             expected_value := 300
             anomaly_type := AnomalyType.behavioral
             severity := "critical"
             context := AnomalyContext.rapidFire accountId (t2 - t1) }
    else none)

/-- Modelled from the spec (refinement target for the rapid-fire claim): the
whole fraud scan in gap form — accounts in first-occurrence order, accounts
with fewer than five records contribute nothing, the others contribute one
anomaly per sub-60-second gap among their first five sorted records. -/
def specFraudPatterns (parseIso : String → Option ℚ)
    (transactions : List Txn) : List Anomaly :=
  (firstKeys transactions).flatMap (fun acc =>
    let g := transactions.filter (fun t => acctKey t = acc)
    if 5 ≤ g.length then specRapidFire parseIso acc g else [])

/-- Every pair produced by enumerate carries an in-range index and the list
element at that index. -/
theorem mem_idxVals {l : List ℚ} {p : ℕ × ℚ} (h : p ∈ idxVals l) :
    p.1 < l.length ∧ p.2 = l.getD p.1 0 := by
  simp only [idxVals, List.mem_map, List.mem_range] at h
  obtain ⟨i, hi, rfl⟩ := h
  exact ⟨hi, rfl⟩

/-- The mean of a nonempty constant list is the constant. -/
theorem listMean_const {l : List ℚ} {v : ℚ} (hne : l ≠ [])
    (h : ∀ x ∈ l, x = v) : listMean l = v := by
  have hsum : l.sum = l.length • v := List.sum_eq_card_nsmul l v h
  have hlen : (l.length : ℚ) ≠ 0 := by
    simpa using List.length_pos.mpr hne |>.ne'
  simp only [listMean, hsum, nsmul_eq_mul]
  field_simp

/-- The sample variance of a constant list is zero. -/
theorem sampleVar_const {l : List ℚ} {v : ℚ} (h : ∀ x ∈ l, x = v) :
    sampleVar l = 0 := by
  rcases eq_or_ne l [] with rfl | hne
  · simp [sampleVar]
  · have hmean := listMean_const hne h
    have hzero : (l.map (fun x => (x - listMean l) ^ 2)).sum = 0 := by
      apply List.sum_eq_zero
      intro x hx
      simp only [List.mem_map] at hx
      obtain ⟨y, hy, rfl⟩ := hx
      rw [h y hy, hmean]
      ring
    simp [sampleVar, hzero]

/-- A flat map over a list each of whose images is empty is empty. -/
theorem flatMap_eq_nil_of_forall {α β : Type} {l : List α} {f : α → List β}
    (h : ∀ a ∈ l, f a = []) : l.flatMap f = [] := by
  induction l with
  | nil => rfl
  | cons a t ih =>
    simp only [List.flatMap_cons, h a (List.mem_cons_self a t), List.nil_append]
    exact ih (fun x hx => h x (List.mem_cons_of_mem a hx))

/-- Congruence for flat maps. -/
theorem flatMap_congr {α β : Type} {l : List α} {f g : α → List β}
    (h : ∀ a ∈ l, f a = g a) : l.flatMap f = l.flatMap g := by
  induction l with
  | nil => rfl
  | cons a t ih =>
    simp only [List.flatMap_cons, h a (List.mem_cons_self a t)]
    rw [ih (fun x hx => h x (List.mem_cons_of_mem a hx))]

/-- The default-valued head of a nonempty list is a member. -/
theorem headD_mem_of_ne_nil {α : Type} [Inhabited α] {l : List α} (h : l ≠ []) :
    l.headD default ∈ l := by
  cases l with
  | nil => exact absurd rfl h
  | cons a t => exact List.mem_cons_self a t

/-- The default-valued last element of a nonempty list is a member. -/
theorem getLastD_mem_of_ne_nil {α : Type} [Inhabited α] {l : List α} (h : l ≠ []) :
    l.getLastD default ∈ l := by
  rw [List.getLastD_eq_getLast?, List.getLast?_eq_getLast l h]
  simp only [Option.getD_some]
  exact List.getLast_mem h

/-- C1 counterexample: on the series [10, 10, 10, 10, 100] the z-score
detector with its default threshold 2.5 flags nothing at all — in
particular it does not flag the point 100, contrary to the claim.  (With
five points the largest possible sample z-score is 4 over the square root
of 5, about 1.789.) -/
theorem c1_counterexample :
    ZScoreDetector.detect (5 / 2) [10, 10, 10, 10, 100] = [] := by
  norm_num [ZScoreDetector.detect, idxVals, listMean, sampleVar, List.range_succ,
    List.filterMap_cons]

/-- C1 as amended: for [10, 10, 10, 10, 100] the detector with the default
threshold 2.5 flags no point; the squared z-score of the point 100 is
16/5 (z about 1.789, below 2.5), so with any threshold below that — for
example 1.7 — exactly the point 100 is flagged, and the other four points
(squared z-score 1/5) are not. -/
theorem c1_theorem :
    ZScoreDetector.detect (5 / 2) [10, 10, 10, 10, 100] = [] ∧
    ZScoreDetector.detect (17 / 10) [10, 10, 10, 10, 100] = [(4, 16 / 5)] := by
  constructor
  · norm_num [ZScoreDetector.detect, idxVals, listMean, sampleVar, List.range_succ,
      List.filterMap_cons]
  · norm_num [ZScoreDetector.detect, idxVals, listMean, sampleVar, List.range_succ,
      List.filterMap_cons]

/-- C8: for every metric name, every series of fewer than three values, every
optional timestamp list and every wall clock, the detection engine returns
the empty list. -/
theorem c8_theorem (metricName : String) (values : List ℚ)
    (timestamps : Option (List ℚ)) (now : ℚ) (h : values.length < 3) :
    detect_metric_anomalies metricName values timestamps now = [] := by
  simp [detect_metric_anomalies, h]

/-- C8 witness: the engine on the two-point series [1, 2]. -/
theorem c8_witness :
    (([1, 2] : List ℚ).length < 3) ∧
    detect_metric_anomalies "m" [1, 2] none 0 = [] :=
  ⟨by decide, c8_theorem "m" [1, 2] none 0 (by decide)⟩

/-- C3 counterexample: on the non-matching raw line boom the constructed
entry has level UNKNOWN, component unknown and unset timestamp, but its
message field is the empty string, not the full raw line (the raw line is
retained in the raw_log field instead), contrary to the claim. -/
theorem c3_counterexample :
    LogEntry.parse (fun _ => none) 0 "boom" =
      { raw_log := "boom", timestamp := none, level := "UNKNOWN",
        component := "unknown", message := "" } ∧
    ("boom" : String) ≠ "" := by
  constructor
  · rfl
  · decide

/-- C3 as amended: for every raw line on which the log-line regex does not
match, construction still succeeds and yields level UNKNOWN, component
unknown and an unset timestamp, but the message field is left empty and the
raw line is retained only in the raw_log field. -/
theorem c3_theorem (strptime : String → Option ℚ) (now : ℚ) (raw : String)
    (h : matchLogLine raw.data = none) :
    LogEntry.parse strptime now raw =
      { raw_log := raw, timestamp := none, level := "UNKNOWN",
        component := "unknown", message := "" } := by
  simp [LogEntry.parse, h]

/-- C3 witness: the amended statement at the concrete non-matching line. -/
theorem c3_witness :
    matchLogLine ("boom" : String).data = none ∧
    LogEntry.parse (fun _ => some 5) 7 "boom" =
      { raw_log := "boom", timestamp := none, level := "UNKNOWN",
        component := "unknown", message := "" } :=
  ⟨by decide, c3_theorem (fun _ => some 5) 7 "boom" (by decide)⟩

/-- C10: (1) every LogEntry whose level is not UNKNOWN was built in the
regex-match branch, where the timestamp is always set (to the strptime
result or, on strptime failure, the wall clock); (2) consequently the
first_error and last_error computation of get_error_summary never
dereferences an unset timestamp on entries loaded by load_logs. -/
theorem c10_theorem :
    (∀ (strptime : String → Option ℚ) (now : ℚ) (raw : String),
        (LogEntry.parse strptime now raw).level ≠ "UNKNOWN" →
        (LogEntry.parse strptime now raw).timestamp ≠ none) ∧
    (∀ (strptime : String → Option ℚ) (now : ℚ) (logLines : List String),
        get_error_summary_bounds (load_logs strptime now logLines) ≠
          Except.error ()) := by
  have h1 : ∀ (strptime : String → Option ℚ) (now : ℚ) (raw : String),
      (LogEntry.parse strptime now raw).level ≠ "UNKNOWN" →
      (LogEntry.parse strptime now raw).timestamp ≠ none := by
    intro stp now raw hlvl
    unfold LogEntry.parse at hlvl ⊢
    cases hm : matchLogLine raw.data with
    | none => rw [hm] at hlvl; simp at hlvl
    | some g =>
      obtain ⟨ts, ms, comp, lvl, msg⟩ := g
      simp
  refine ⟨h1, ?_⟩
  intro stp now logLines
  simp only [get_error_summary_bounds]
  set errors := (load_logs stp now logLines).filter (fun e => e.level = "ERROR")
    with herrors
  by_cases hnil : errors = []
  · simp [hnil]
  · have hts : ∀ e ∈ errors, e.timestamp ≠ none := by
      intro e he
      have hlvl : e.level = "ERROR" := by
        have := (List.mem_filter.mp he).2
        simpa using this
      have hin : e ∈ load_logs stp now logLines := List.mem_of_mem_filter he
      simp only [load_logs, List.mem_filterMap] at hin
      obtain ⟨line, _, hEq⟩ := hin
      by_cases hb : line.trim = ""
      · simp [hb] at hEq
      · rw [if_neg hb] at hEq
        have hpe := Option.some.inj hEq
        rw [← hpe]
        apply h1
        rw [hpe, hlvl]
        decide
    have htsH : (errors.headD default).timestamp ≠ none :=
      hts _ (headD_mem_of_ne_nil hnil)
    have htsL : (errors.getLastD default).timestamp ≠ none :=
      hts _ (getLastD_mem_of_ne_nil hnil)
    obtain ⟨t1, ht1⟩ := Option.ne_none_iff_exists'.mp htsH
    obtain ⟨t2, ht2⟩ := Option.ne_none_iff_exists'.mp htsL
    rw [if_neg hnil, ht1, ht2]
    simp

/-- C10 witness: a concrete INFO line has a non-UNKNOWN level and therefore a
set timestamp. -/
theorem c10_witness :
    (LogEntry.parse (fun _ => some 3) 0
        "2024-01-19 10:30:45,123 - app - INFO - ok").level ≠ "UNKNOWN" ∧
    (LogEntry.parse (fun _ => some 3) 0
        "2024-01-19 10:30:45,123 - app - INFO - ok").timestamp ≠ none :=
  ⟨by decide, c10_theorem.1 (fun _ => some 3) 0 _ (by decide)⟩

/-- List indexing with default hits the actual element below the length. -/
theorem getD_eq_of_all {l : List ℚ} {v : ℚ} (h : ∀ x ∈ l, x = v) {j : ℕ}
    (hj : j < l.length) : l.getD j 0 = v := by
  rw [List.getD_eq_getElem l 0 hj]
  exact h _ (List.getElem_mem hj)

/-- The sample variance of a replicated value is zero. -/
theorem sampleVar_replicate (k : ℕ) (v : ℚ) : sampleVar (List.replicate k v) = 0 :=
  sampleVar_const (fun _ hx => List.eq_of_mem_replicate hx)

/-- Every season bucket of a replicated series has zero sample variance. -/
theorem sampleVar_seasonVals_replicate (n p s : ℕ) (v : ℚ) :
    sampleVar (seasonVals (List.replicate n v) p s) = 0 := by
  apply sampleVar_const
  intro x hx
  simp only [seasonVals, List.mem_map, List.mem_filter, List.mem_range] at hx
  obtain ⟨i, ⟨hi, _⟩, rfl⟩ := hx
  exact getD_eq_of_all (fun _ hx => List.eq_of_mem_replicate hx)
    (by simpa using hi)

/-- Every exclusive quartile cut point of a constant list is the constant. -/
theorem quantileExc_const {data : List ℚ} {v : ℚ} (h : ∀ x ∈ data, x = v)
    (hld : 2 ≤ data.length) (i : ℕ) : quantileExc data 4 i = v := by
  simp only [quantileExc]
  have hj1 : min (max ((i * (data.length + 1)) / 4) 1) (data.length - 1) <
      data.length := by omega
  have hj0 : min (max ((i * (data.length + 1)) / 4) 1) (data.length - 1) - 1 <
      data.length := by omega
  rw [getD_eq_of_all h hj1, getD_eq_of_all h hj0]
  push_cast
  field_simp
  ring

/-- C6: on a constant series of any length, each of the four statistical
detectors returns the empty list for every configuration, because the
zero-variance guard is hit before any division (the window-size and period
bounds restrict the statement to the configurations on which the source
itself is defined). -/
theorem c6_theorem (threshold multiplier sigma : ℚ) (windowSize period : ℕ)
    (timestamps : Option (List ℚ)) (now : ℚ) (n : ℕ) (v : ℚ)
    (_hw : 2 ≤ windowSize) (_hp : 1 ≤ period) :
    ZScoreDetector.detect threshold (List.replicate n v) = [] ∧
    IQRDetector.detect multiplier (List.replicate n v) = [] ∧
    MovingAverageDetector.detect windowSize sigma (List.replicate n v) = [] ∧
    SeasonalityDetector.detect period (List.replicate n v) timestamps now = [] := by
  have hall : ∀ x ∈ List.replicate n v, x = v := fun _ hx => List.eq_of_mem_replicate hx
  refine ⟨?_, ?_, ?_, ?_⟩
  · simp [ZScoreDetector.detect, sampleVar_replicate]
  · by_cases h4 : n < 4
    · simp [IQRDetector.detect, h4]
    · have hallS : ∀ x ∈ (List.replicate n v).mergeSort (fun a b => decide (a ≤ b)), x = v :=
        fun x hx => List.eq_of_mem_replicate (List.mem_mergeSort.mp hx)
      have hldS : 2 ≤ ((List.replicate n v).mergeSort (fun a b => decide (a ≤ b))).length := by
        rw [List.length_mergeSort, List.length_replicate]
        omega
      have h4' : ¬ (List.replicate n v).length < 4 := by
        rw [List.length_replicate]; omega
      simp only [IQRDetector.detect, if_neg h4']
      rw [quantileExc_const hallS hldS, quantileExc_const hallS hldS]
      rw [List.filterMap_eq_nil_iff]
      intro p hp2
      have hv : p.2 = v := by
        rw [(mem_idxVals hp2).2]
        exact getD_eq_of_all hall (mem_idxVals hp2).1
      rw [hv]
      simp
  · simp [MovingAverageDetector.detect, List.drop_replicate, List.take_replicate,
      sampleVar_replicate]
  · simp [SeasonalityDetector.detect, sampleVar_seasonVals_replicate]

/-- C6 witness: the constant series [5,5,5,5,5,5,5,5] of the spec with the
engine configuration (threshold 2.5, multiplier 1.5, window 7, sigma 2,
period 24). -/
theorem c6_witness :
    ((2 : ℕ) ≤ 7 ∧ (1 : ℕ) ≤ 24) ∧
    (ZScoreDetector.detect (5 / 2) (List.replicate 8 (5 : ℚ)) = [] ∧
     IQRDetector.detect (3 / 2) (List.replicate 8 (5 : ℚ)) = [] ∧
     MovingAverageDetector.detect 7 2 (List.replicate 8 (5 : ℚ)) = [] ∧
     SeasonalityDetector.detect 24 (List.replicate 8 (5 : ℚ)) none 0 = []) :=
  ⟨⟨by decide, by decide⟩,
   c6_theorem (5 / 2) (3 / 2) 2 7 24 none 0 8 5 (by decide) (by decide)⟩

/-- Every index flagged by the z-score detector is an index into the series. -/
theorem zscore_index_lt {th : ℚ} {values : List ℚ} {p : ℕ × ℚ}
    (h : p ∈ ZScoreDetector.detect th values) : p.1 < values.length := by
  unfold ZScoreDetector.detect at h
  try dsimp only at h
  split at h
  · simp at h
  · split at h
    · simp at h
    · rw [List.mem_filterMap] at h
      obtain ⟨a, ha, hfa⟩ := h
      try dsimp only at hfa
      split at hfa
      · injection hfa with hp
        rw [← hp]
        exact (mem_idxVals ha).1
      · simp at hfa

/-- Every index flagged by the IQR detector is an index into the series. -/
theorem iqr_index_lt {m : ℚ} {values : List ℚ} {p : ℕ × String}
    (h : p ∈ IQRDetector.detect m values) : p.1 < values.length := by
  unfold IQRDetector.detect at h
  try dsimp only at h
  split at h
  · simp at h
  · rw [List.mem_filterMap] at h
    obtain ⟨a, ha, hfa⟩ := h
    split at hfa
    · injection hfa with hp
      rw [← hp]
      exact (mem_idxVals ha).1
    · split at hfa
      · injection hfa with hp
        rw [← hp]
        exact (mem_idxVals ha).1
      · simp at hfa

/-- Every index flagged by the moving-average detector is an index into the
series. -/
theorem ma_index_lt {w : ℕ} {s : ℚ} {values : List ℚ} {p : ℕ × ℚ}
    (h : p ∈ MovingAverageDetector.detect w s values) : p.1 < values.length := by
  unfold MovingAverageDetector.detect at h
  try dsimp only at h
  split at h
  · simp at h
  · rw [List.mem_filterMap] at h
    obtain ⟨i, hi, hfa⟩ := h
    rw [List.mem_range'] at hi
    obtain ⟨k, hk, rfl⟩ := hi
    try dsimp only at hfa
    split at hfa
    · injection hfa with hp
      rw [← hp]
      omega
    · simp at hfa

set_option maxHeartbeats 2000000 in
/-- C2 counterexample: with no timestamp list supplied, the engine stamps
anomalies with the wall clock of the call, so two calls on the same series at
different wall-clock instants return different anomaly lists, contrary to the
claim quantifying over the optional timestamp list. -/
theorem c2_counterexample :
    detect_metric_anomalies "m" [0, 1, 0, 1, 0, 1, 0, 10] none 0 ≠
    detect_metric_anomalies "m" [0, 1, 0, 1, 0, 1, 0, 10] none 1 := by
  have h0 : detect_metric_anomalies "m" [0, 1, 0, 1, 0, 1, 0, 10] none 0 =
      [{ timestamp := 0, metric_name := "m", value := 10, expected_value := 1/2,
         anomaly_type := AnomalyType.statistical, severity := "medium",
         context := AnomalyContext.iqr "high_outlier" 7 },
       { timestamp := 0, metric_name := "m", value := 10, expected_value := 13/8,
         anomaly_type := AnomalyType.statistical, severity := "medium",
         context := AnomalyContext.movingAvg (67/7) 7 }] := by
    norm_num [detect_metric_anomalies, ZScoreDetector.detect, IQRDetector.detect,
      MovingAverageDetector.detect, idxVals, listMean, sampleVar, listMedian,
      quantileExc, tsAt, List.range_succ, List.filterMap_cons, List.mergeSort,
      List.merge, List.range']
  have h1 : detect_metric_anomalies "m" [0, 1, 0, 1, 0, 1, 0, 10] none 1 =
      [{ timestamp := 1, metric_name := "m", value := 10, expected_value := 1/2,
         anomaly_type := AnomalyType.statistical, severity := "medium",
         context := AnomalyContext.iqr "high_outlier" 7 },
       { timestamp := 1, metric_name := "m", value := 10, expected_value := 13/8,
         anomaly_type := AnomalyType.statistical, severity := "medium",
         context := AnomalyContext.movingAvg (67/7) 7 }] := by
    norm_num [detect_metric_anomalies, ZScoreDetector.detect, IQRDetector.detect,
      MovingAverageDetector.detect, idxVals, listMean, sampleVar, listMedian,
      quantileExc, tsAt, List.range_succ, List.filterMap_cons, List.mergeSort,
      List.merge, List.range']
  rw [h0, h1]
  simp

/-- C2 as amended: when a timestamp list paired with the series is supplied,
the engine is a pure function of its arguments — two calls at arbitrary
wall-clock instants return identical anomaly lists, order and every field
included.  (Without a timestamp list, anomalies carry the wall clock of the
call and only the timestamp fields can differ between runs.) -/
theorem c2_theorem (metricName : String) (values : List ℚ) (timestamps : List ℚ)
    (now1 now2 : ℚ) (hlen : timestamps.length = values.length) :
    detect_metric_anomalies metricName values (some timestamps) now1 =
    detect_metric_anomalies metricName values (some timestamps) now2 := by
  by_cases h3 : values.length < 3
  · simp [detect_metric_anomalies, h3]
  · have hts : ∀ i, i < values.length →
        tsAt (some timestamps) i now1 = tsAt (some timestamps) i now2 := by
      intro i hi
      simp only [tsAt]
      by_cases hnil : timestamps = []
      · exfalso
        rw [hnil] at hlen
        simp at hlen
        omega
      · rw [if_neg hnil, if_neg hnil]
        have hi2 : i < timestamps.length := by rw [hlen]; exact hi
        rw [List.getD_eq_getElem _ _ hi2, List.getD_eq_getElem _ _ hi2]
    simp only [detect_metric_anomalies, if_neg h3]
    congr 1
    · congr 1
      · apply List.map_congr_left
        intro p hp
        rw [hts p.1 (zscore_index_lt hp)]
      · apply List.map_congr_left
        intro p hp
        rw [hts p.1 (iqr_index_lt hp)]
    · apply List.map_congr_left
      intro p hp
      rw [hts p.1 (ma_index_lt hp)]

/-- C2 witness: the amended statement at a concrete series with a paired
timestamp list and two distinct wall-clock instants. -/
theorem c2_witness :
    (([10, 20, 30, 40, 50, 60, 70, 80] : List ℚ).length =
      ([0, 1, 0, 1, 0, 1, 0, 10] : List ℚ).length) ∧
    detect_metric_anomalies "m" [0, 1, 0, 1, 0, 1, 0, 10]
        (some [10, 20, 30, 40, 50, 60, 70, 80]) 0 =
    detect_metric_anomalies "m" [0, 1, 0, 1, 0, 1, 0, 10]
        (some [10, 20, 30, 40, 50, 60, 70, 80]) 1 :=
  ⟨by decide,
   c2_theorem "m" [0, 1, 0, 1, 0, 1, 0, 10] [10, 20, 30, 40, 50, 60, 70, 80]
     0 1 (by decide)⟩

set_option maxHeartbeats 2000000 in
/-- C5 counterexample: on [0,1,0,1,0,1,0,10] the engine emits a
moving-average anomaly at index 7 whose expected_value is 13/8, the mean of
the whole series — not 3/7, the mean of its trailing window (the first
seven values) — contrary to the claim. -/
theorem c5_counterexample :
    (detect_metric_anomalies "m" [0, 1, 0, 1, 0, 1, 0, 10] none 0).map
        (fun a => (a.context, a.expected_value)) =
      [(AnomalyContext.iqr "high_outlier" 7, 1/2),
       (AnomalyContext.movingAvg (67/7) 7, 13/8)] ∧
    listMean ([0, 1, 0, 1, 0, 1, 0, 10] : List ℚ) = 13/8 ∧
    listMean (([0, 1, 0, 1, 0, 1, 0, 10] : List ℚ).take 7) = 3/7 ∧
    (13/8 : ℚ) ≠ 3/7 := by
  refine ⟨?_, ?_, ?_, by norm_num⟩
  · norm_num [detect_metric_anomalies, ZScoreDetector.detect, IQRDetector.detect,
      MovingAverageDetector.detect, idxVals, listMean, sampleVar, listMedian,
      quantileExc, tsAt, List.range_succ, List.filterMap_cons, List.mergeSort,
      List.merge, List.range']
  · norm_num [listMean]
  · norm_num [listMean]

/-- C5 as amended: every anomaly the engine emits carries as expected_value
the series mean when it is a z-score anomaly, the series median when it is
an IQR anomaly, and again the whole-series mean — not the trailing-window
mean — when it is a moving-average anomaly. -/
theorem c5_theorem (metricName : String) (values : List ℚ)
    (timestamps : Option (List ℚ)) (now : ℚ) (a : Anomaly)
    (ha : a ∈ detect_metric_anomalies metricName values timestamps now) :
    ((∃ z i, a.context = AnomalyContext.zscore z i) →
      a.expected_value = listMean values) ∧
    ((∃ t i, a.context = AnomalyContext.iqr t i) →
      a.expected_value = listMedian values) ∧
    ((∃ d i, a.context = AnomalyContext.movingAvg d i) →
      a.expected_value = listMean values) := by
  unfold detect_metric_anomalies at ha
  split at ha
  · simp at ha
  · simp only [List.mem_append, List.mem_map] at ha
    rcases ha with (⟨p, hp, rfl⟩ | ⟨p, hp, rfl⟩) | ⟨p, hp, rfl⟩ <;> simp

set_option maxHeartbeats 2000000 in
/-- C5 witness: the amended statement at the concrete IQR anomaly emitted on
[0,1,0,1,0,1,0,10]: it is a member of the engine output, its context is an
IQR context, and its expected_value 1/2 is the series median. -/
theorem c5_witness :
    ({ timestamp := 0, metric_name := "m", value := 10, expected_value := 1/2,
       anomaly_type := AnomalyType.statistical, severity := "medium",
       context := AnomalyContext.iqr "high_outlier" 7 } : Anomaly) ∈
      detect_metric_anomalies "m" [0, 1, 0, 1, 0, 1, 0, 10] none 0 ∧
    ((∃ t i, AnomalyContext.iqr "high_outlier" 7 = AnomalyContext.iqr t i) →
      (1/2 : ℚ) = listMedian [0, 1, 0, 1, 0, 1, 0, 10]) := by
  have h0 : detect_metric_anomalies "m" [0, 1, 0, 1, 0, 1, 0, 10] none 0 =
      [{ timestamp := 0, metric_name := "m", value := 10, expected_value := 1/2,
         anomaly_type := AnomalyType.statistical, severity := "medium",
         context := AnomalyContext.iqr "high_outlier" 7 },
       { timestamp := 0, metric_name := "m", value := 10, expected_value := 13/8,
         anomaly_type := AnomalyType.statistical, severity := "medium",
         context := AnomalyContext.movingAvg (67/7) 7 }] := by
    norm_num [detect_metric_anomalies, ZScoreDetector.detect, IQRDetector.detect,
      MovingAverageDetector.detect, idxVals, listMean, sampleVar, listMedian,
      quantileExc, tsAt, List.range_succ, List.filterMap_cons, List.mergeSort,
      List.merge, List.range']
  have hmem :
      ({ timestamp := 0, metric_name := "m", value := 10, expected_value := 1/2,
          anomaly_type := AnomalyType.statistical, severity := "medium",
          context := AnomalyContext.iqr "high_outlier" 7 } : Anomaly) ∈
        detect_metric_anomalies "m" [0, 1, 0, 1, 0, 1, 0, 10] none 0 := by
    rw [h0]
    simp
  have hfull := c5_theorem "m" [0, 1, 0, 1, 0, 1, 0, 10] none 0 _ hmem
  exact ⟨hmem, hfull.2.1⟩

/-- C9: each statement-level translation with explicit list state returns
exactly the pure detection result paired with the unchanged input list: no
detector mutates the caller-owned sequence (sorted() and slicing build
copies; every other statement only reads). -/
theorem c9_theorem (threshold multiplier sigma : ℚ) (windowSize period : ℕ)
    (values : List ℚ) (timestamps : Option (List ℚ)) (now : ℚ) :
    ZScoreDetector.detectSt threshold values =
      (ZScoreDetector.detect threshold values, values) ∧
    IQRDetector.detectSt multiplier values =
      (IQRDetector.detect multiplier values, values) ∧
    MovingAverageDetector.detectSt windowSize sigma values =
      (MovingAverageDetector.detect windowSize sigma values, values) ∧
    SeasonalityDetector.detectSt period values timestamps now =
      (SeasonalityDetector.detect period values timestamps now, values) := by
  refine ⟨?_, ?_, ?_, ?_⟩
  · unfold ZScoreDetector.detectSt ZScoreDetector.detect
    dsimp only
    split
    · rfl
    · split <;> rfl
  · unfold IQRDetector.detectSt IQRDetector.detect
    dsimp only
    split <;> rfl
  · unfold MovingAverageDetector.detectSt MovingAverageDetector.detect
    dsimp only
    split <;> rfl
  · unfold SeasonalityDetector.detectSt SeasonalityDetector.detect
    dsimp only
    split <;> rfl

/-- The per-record loop of detect_transaction_anomalies returns normally
whenever every present timestamp parses. -/
theorem txnLoop_ok (parseIso : String → Option ℚ) (now meanA varA : ℚ) :
    ∀ txns : List Txn,
      (∀ t ∈ txns, ∀ s, t.timestamp = some s → (parseIso s).isSome) →
      ∃ l, txnLoop parseIso now meanA varA txns = Except.ok l := by
  intro txns
  induction txns with
  | nil => exact fun _ => ⟨[], rfl⟩
  | cons t rest ih =>
    intro h
    obtain ⟨l, hl⟩ := ih (fun x hx => h x (List.mem_cons_of_mem t hx))
    unfold txnLoop
    dsimp only
    by_cases hflag : 0 < varA ∧ meanA < t.amount.getD 0 ∧
        9 * varA < (t.amount.getD 0 - meanA) ^ 2
    · rw [if_pos hflag]
      cases hts0 : t.timestamp with
      | none =>
        rw [hl]
        exact ⟨_, rfl⟩
      | some s =>
        obtain ⟨q, hq⟩ := Option.isSome_iff_exists.mp
          (h t (List.mem_cons_self t rest) s hts0)
        dsimp only
        rw [hq, hl]
        exact ⟨_, rfl⟩
    · rw [if_neg hflag]
      exact ⟨l, hl⟩

set_option maxHeartbeats 1000000 in
/-- C4 counterexample: a twelve-record batch whose one large transaction
(amount 100 against eleven zeros; its z-score is about 3.17, above 3, since
(100 - 25/3)^2 = 75625/9 exceeds 9 * variance = 7500, so it is flagged)
carries the unparsable timestamp string bad: ValueError propagates out of
detect_transaction_anomalies and aborts the whole batch, contrary to the
claim that an unparsable timestamp never raises. -/
theorem c4_counterexample :
    detect_transaction_anomalies (fun _ => none) 0
      (List.replicate 11 (⟨some 0, none, none, none⟩ : Txn) ++
        [⟨some 100, some "bad", none, none⟩]) =
      Except.error () := by
  norm_num [detect_transaction_anomalies, txnLoop, listMean, sampleVar,
    List.replicate]
  simp

/-- C4 as amended: detect_fraud_patterns alone skips unparsable timestamps —
it never raises, and every anomaly it emits stems from a pair of
successfully parsed timestamps whose gap it records; while
detect_transaction_anomalies returns normally only when every record with a
present timestamp parses (an unparsable timestamp on a flagged record
raises and aborts the batch, as the counterexample shows). -/
theorem c4_theorem :
    (∀ (parseIso : String → Option ℚ) (now : ℚ) (transactions : List Txn),
      (∀ t ∈ transactions, ∀ s, t.timestamp = some s → (parseIso s).isSome) →
      ∃ l, detect_transaction_anomalies parseIso now transactions =
        Except.ok l) ∧
    (∀ (parseIso : String → Option ℚ) (transactions : List Txn)
        (a : Anomaly), a ∈ detect_fraud_patterns parseIso transactions →
      ∃ t1 t2 s1 s2, parseIso s1 = some t1 ∧ parseIso s2 = some t2 ∧
        a.value = t2 - t1 ∧ a.value < 60) := by
  constructor
  · intro parseIso now transactions h
    unfold detect_transaction_anomalies
    dsimp only
    split
    · exact ⟨[], rfl⟩
    · split
      · exact ⟨[], rfl⟩
      · exact txnLoop_ok parseIso now _ _ transactions h
  · intro parseIso transactions a ha
    unfold detect_fraud_patterns at ha
    split at ha
    · simp at ha
    · rw [List.mem_flatMap] at ha
      obtain ⟨acc, _, ha⟩ := ha
      dsimp only at ha
      split at ha
      · unfold rapidFire at ha
        rw [List.mem_filterMap] at ha
        obtain ⟨i, _, hfa⟩ := ha
        split at hfa
        · rename_i t1 t2 ht1 ht2
          dsimp only at hfa
          split at hfa
          · injection hfa with hEq
            refine ⟨t1, t2, _, _, ht1, ht2, ?_, ?_⟩
            · rw [← hEq]
            · rw [← hEq]
              assumption
          · simp at hfa
        · simp at hfa
      · simp at ha

set_option maxHeartbeats 1000000 in
/-- C4 witness: both amended parts at concrete inputs — a one-record batch
whose timestamp parses, and a five-record rapid-fire batch whose anomalies
all stem from parsed timestamp pairs. -/
theorem c4_witness :
    ((∀ t ∈ ([⟨some 1, some "a", none, none⟩] : List Txn), ∀ s,
        t.timestamp = some s →
        ((fun s => if s = "a" then some (0 : ℚ) else none) s).isSome) ∧
      (∃ l, detect_transaction_anomalies
          (fun s => if s = "a" then some (0 : ℚ) else none) 0
          [⟨some 1, some "a", none, none⟩] = Except.ok l)) ∧
    ((⟨0, "transaction_frequency", 0, 300, AnomalyType.behavioral, "critical",
        AnomalyContext.rapidFire "unknown" 0⟩ : Anomaly) ∈
        detect_fraud_patterns (fun _ => some (0 : ℚ))
          (List.replicate 5 (⟨none, none, none, none⟩ : Txn)) ∧
      (∃ (t1 t2 : ℚ) (s1 s2 : String), (fun _ => some (0 : ℚ)) s1 = some t1 ∧
        (fun _ => some (0 : ℚ)) s2 = some t2 ∧
        (0 : ℚ) = t2 - t1 ∧ (0 : ℚ) < 60)) := by
  have hyp1 : ∀ t ∈ ([⟨some 1, some "a", none, none⟩] : List Txn), ∀ s,
      t.timestamp = some s →
      ((fun s => if s = "a" then some (0 : ℚ) else none) s).isSome := by
    intro t ht s hs
    simp only [List.mem_singleton] at ht
    subst ht
    simp only [Option.some.injEq] at hs
    subst hs
    simp
  have hev : detect_fraud_patterns (fun _ => some (0 : ℚ))
      (List.replicate 5 (⟨none, none, none, none⟩ : Txn)) =
      List.replicate 4 (⟨0, "transaction_frequency", 0, 300,
        AnomalyType.behavioral, "critical",
        AnomalyContext.rapidFire "unknown" 0⟩ : Anomaly) := by
    norm_num [detect_fraud_patterns, firstKeys, rapidFire, sortByTs, tsKey,
      acctKey, List.replicate, List.mergeSort, List.merge, List.range',
      List.filterMap_cons]
    simp
  have hmem : (⟨0, "transaction_frequency", 0, 300, AnomalyType.behavioral,
      "critical", AnomalyContext.rapidFire "unknown" 0⟩ : Anomaly) ∈
      detect_fraud_patterns (fun _ => some (0 : ℚ))
        (List.replicate 5 (⟨none, none, none, none⟩ : Txn)) := by
    rw [hev]
    simp [List.replicate]
  exact ⟨⟨hyp1, c4_theorem.1 _ 0 _ hyp1⟩,
    ⟨hmem, c4_theorem.2 (fun _ => some (0 : ℚ)) _ _ hmem⟩⟩

/-- Under the assumption that every timestamp in the group parses, the
try/except scan of the source skips nothing and coincides with the
spec-side gap form on the first five sorted records. -/
theorem rapidFire_eq_spec (parseIso : String → Option ℚ) (acc : String)
    {g : List Txn} (h5 : 5 ≤ g.length)
    (hp : ∀ t ∈ g, (parseIso (tsKey t)).isSome) :
    rapidFire parseIso acc g = specRapidFire parseIso acc g := by
  have hlen : (sortByTs g).length = g.length := by
    unfold sortByTs
    exact List.length_mergeSort g
  have hpar : ∀ k, k < 5 →
      ∃ q, parseIso (tsKey ((sortByTs g)[k]?.getD default)) = some q := by
    intro k hk
    have hkl : k < (sortByTs g).length := by omega
    have hsome : (sortByTs g)[k]? = some ((sortByTs g)[k]) :=
      List.getElem?_eq_getElem hkl
    have hmemS : (sortByTs g)[k] ∈ sortByTs g := List.getElem_mem hkl
    unfold sortByTs at hmemS
    have hmem2 : (sortByTs g)[k] ∈ g := List.mem_mergeSort.mp hmemS
    obtain ⟨q, hq⟩ := Option.isSome_iff_exists.mp (hp _ hmem2)
    refine ⟨q, ?_⟩
    rw [hsome]
    simpa using hq
  obtain ⟨q0, h0⟩ := hpar 0 (by omega)
  obtain ⟨q1, h1⟩ := hpar 1 (by omega)
  obtain ⟨q2, h2⟩ := hpar 2 (by omega)
  obtain ⟨q3, h3⟩ := hpar 3 (by omega)
  obtain ⟨q4, h4⟩ := hpar 4 (by omega)
  have hmin : min 5 g.length - 1 = 4 := by omega
  unfold rapidFire specRapidFire
  rw [hmin]
  have hr1 : List.range' 1 4 = [1, 2, 3, 4] := rfl
  have hr0 : List.range 4 = [0, 1, 2, 3] := by decide
  rw [hr1, hr0]
  simp only [List.filterMap_cons, List.filterMap_nil]
  norm_num
  simp only [h0, h1, h2, h3, h4, Option.getD_some]

/-- C7: when every timestamp in the batch parses, detect_fraud_patterns
equals the spec-side gap form — accounts grouped by source account in
first-occurrence order, accounts with fewer than five records contributing
nothing, and each account with at least five records contributing exactly
one anomaly per consecutive gap under 60 seconds among its first five
records sorted by timestamp string, with value the gap, timestamp the later
record, expected 300; moreover every emitted anomaly is critical-severity
behavioral with expected_value 300 and value below 60. -/
theorem c7_theorem (parseIso : String → Option ℚ) (transactions : List Txn)
    (hp : ∀ t ∈ transactions, (parseIso (tsKey t)).isSome) :
    detect_fraud_patterns parseIso transactions =
      specFraudPatterns parseIso transactions ∧
    ∀ a ∈ detect_fraud_patterns parseIso transactions,
      a.severity = "critical" ∧ a.anomaly_type = AnomalyType.behavioral ∧
      a.expected_value = 300 ∧ a.value < 60 := by
  constructor
  · unfold detect_fraud_patterns specFraudPatterns
    split
    · rename_i h
      subst h
      rfl
    · apply flatMap_congr
      intro acc hacc
      dsimp only
      split
      · rename_i h5
        apply rapidFire_eq_spec _ _ h5
        intro t ht
        exact hp t (List.mem_of_mem_filter ht)
      · rfl
  · intro a ha
    unfold detect_fraud_patterns at ha
    split at ha
    · simp at ha
    · rw [List.mem_flatMap] at ha
      obtain ⟨acc, _, ha⟩ := ha
      dsimp only at ha
      split at ha
      · unfold rapidFire at ha
        rw [List.mem_filterMap] at ha
        obtain ⟨i, _, hfa⟩ := ha
        split at hfa
        · dsimp only at hfa
          split at hfa
          · injection hfa with hEq
            exact ⟨by rw [← hEq], by rw [← hEq], by rw [← hEq],
              by rw [← hEq]; assumption⟩
          · simp at hfa
        · simp at hfa
      · simp at ha

/-- C7 witness: a five-record single-account batch whose timestamps all
parse to the same instant — four zero gaps, four rapid-fire anomalies. -/
theorem c7_witness :
    (∀ t ∈ List.replicate 5 (⟨none, none, none, none⟩ : Txn),
      ((fun _ => some (0 : ℚ)) (tsKey t)).isSome) ∧
    (detect_fraud_patterns (fun _ => some (0 : ℚ))
        (List.replicate 5 (⟨none, none, none, none⟩ : Txn)) =
      specFraudPatterns (fun _ => some (0 : ℚ))
        (List.replicate 5 (⟨none, none, none, none⟩ : Txn)) ∧
     ∀ a ∈ detect_fraud_patterns (fun _ => some (0 : ℚ))
        (List.replicate 5 (⟨none, none, none, none⟩ : Txn)),
       a.severity = "critical" ∧ a.anomaly_type = AnomalyType.behavioral ∧
       a.expected_value = 300 ∧ a.value < 60) :=
  ⟨by decide, c7_theorem _ _ (by decide)⟩
